import Mathlib

/-!
Verification of the PrevMed question-flow navigation engine.

This file shallowly embeds the core of `PrevMed/utils/logic.py`,
`PrevMed/utils/gui.py` and `PrevMed/utils/scoring.py` in Lean 4 and proves
properties of the embedded definitions.

Modelling conventions:
* Python values flowing through the answer context are modelled by `Value`
  (`None`, booleans, integers, strings), which covers every widget value the
  questionnaires use.
* The `skip_if` / `valid_if` condition strings are Python expressions run
  through a sandboxed `eval`; they are modelled by the expression type `Expr`
  whose evaluator `evalExpr` mirrors Python semantics (truthiness, `==`,
  `>=`, short-circuit `and` / `or`, `not`) for the value types above.
  A raised Python exception is an `Except.error`.
* French log / warning messages are transliterated to plain ASCII (accents
  and apostrophes dropped); the message structure is preserved.
* `while` loops over an integer index are modelled by structurally recursive
  functions on an explicit fuel argument; callers pass fuel
  `questions.length + 1`, which bounds the number of iterations of the
  source loops for the step directions the repository uses (+1 / -1).
-/

namespace PrevMed

/-- A runtime value held by a questionnaire widget / answer context entry,
mirroring the Python values the application passes around. -/
inductive Value where
  | vnone : Value
  | vbool : Bool → Value
  | vint : Int → Value
  | vstr : String → Value
deriving DecidableEq, Repr

/-- Python truthiness (`bool(x)`) for the modelled values. -/
def truthy : Value → Bool
  | Value.vnone => false
  | Value.vbool b => b
  | Value.vint n => decide (n ≠ 0)
  | Value.vstr s => decide (s ≠ "")

/-- Numeric view of a value: Python compares `bool` as `0` / `1`. -/
def as_number : Value → Option Int
  | Value.vbool b => some (if b then 1 else 0)
  | Value.vint n => some n
  | _ => none

/-- Python `==` on the modelled values (numeric cross-comparison of bools
and ints; mismatched kinds compare unequal rather than raising). -/
def pyEq (a b : Value) : Bool :=
  match as_number a, as_number b with
  | some m, some n => decide (m = n)
  | _, _ =>
    match a, b with
    | Value.vnone, Value.vnone => true
    | Value.vstr s, Value.vstr t => decide (s = t)
    | _, _ => false

/-- Python `>=`: numbers compare numerically, strings lexicographically,
any other combination raises a `TypeError`. -/
def pyGe (a b : Value) : Except String Value :=
  match as_number a, as_number b with
  | some m, some n => Except.ok (Value.vbool (decide (n ≤ m)))
  | _, _ =>
    match a, b with
    | Value.vstr s, Value.vstr t => Except.ok (Value.vbool (decide (t ≤ s)))
    | _, _ => Except.error "TypeError: unsupported operand types for comparison"

/-- The answer context: variable name to current widget value.  The source
uses a Python dict keyed by each question's unique `variable` name. -/
abbrev Context := List (String × Value)

/-- The sandboxed Python boolean expressions used in `skip_if` / `valid_if`
conditions (literals, variables, `==`, `>=`, `and`, `or`, `not`). -/
inductive Expr where
  | lit : Value → Expr
  | var : String → Expr
  | eq : Expr → Expr → Expr
  | ge : Expr → Expr → Expr
  | and : Expr → Expr → Expr
  | or : Expr → Expr → Expr
  | not : Expr → Expr
deriving DecidableEq, Repr

/-- Model of the sandboxed call eval(condition, empty builtins, context):
evaluates an
expression against the context only; an unbound name or a type error raises
(modelled as `Except.error`).  `and` / `or` short-circuit and return an
operand value, as in Python. -/
def evalExpr (context : Context) : Expr → Except String Value
  | Expr.lit v => Except.ok v
  | Expr.var x =>
    match context.lookup x with
    | some v => Except.ok v
    | none => Except.error ("NameError: name " ++ x ++ " is not defined")
  | Expr.eq a b => do
    let va ← evalExpr context a
    let vb ← evalExpr context b
    Except.ok (Value.vbool (pyEq va vb))
  | Expr.ge a b => do
    let va ← evalExpr context a
    let vb ← evalExpr context b
    pyGe va vb
  | Expr.and a b => do
    let va ← evalExpr context a
    if truthy va then evalExpr context b else Except.ok va
  | Expr.or a b => do
    let va ← evalExpr context a
    if truthy va then Except.ok va else evalExpr context b
  | Expr.not a => do
    let va ← evalExpr context a
    Except.ok (Value.vbool (!truthy va))

/-- Model of `logic.evaluate_skip_if`: `bool(eval(condition, ..., context))`; on
failure re-raises a `RuntimeError` wrapping the cause. -/
def evaluate_skip_if (condition : Expr) (context : Context) : Except String Bool :=
  match evalExpr context condition with
  | Except.ok v => Except.ok (truthy v)
  | Except.error e =>
    Except.error ("Echec de l evaluation de la condition: " ++ e)

/-- Model of `logic.evaluate_valid_if`: identical computation to `evaluate_skip_if`,
only the wrapped error message differs. -/
def evaluate_valid_if (condition : Expr) (context : Context) : Except String Bool :=
  match evalExpr context condition with
  | Except.ok v => Except.ok (truthy v)
  | Except.error e =>
    Except.error ("Echec de l evaluation de la condition valid_if: " ++ e)

/-- A question record (`questions[i]` in the source, loaded from YAML).
`var_name` is the source's `variable` key; `has_default` records whether
`widget_args` declares a `default` key. -/
structure Question where
  var_name : String
  question : String
  skip_if : Option Expr
  valid_if : Option Expr
  invalid_message : Option String
  has_default : Bool
deriving DecidableEq, Repr

/-- Placeholder question used for (never-taken in the source) out-of-range
list accesses. -/
def default_question : Question :=
  Question.mk "" "" none none none false

/-- Eligibility of one question: `("skip_if" not in q) or (not
evaluate_skip_if(q["skip_if"], context))` — the test both `logic.py` and
`gui.py` apply. -/
def question_is_eligible (q : Question) (context : Context) : Except String Bool :=
  match q.skip_if with
  | none => Except.ok true
  | some c =>
    match evaluate_skip_if c context with
    | Except.ok b => Except.ok (!b)
    | Except.error e => Except.error e

/-- Decidable form of "the question at index `i` is skipped": it has a
`skip_if` which evaluates to `True` (without raising). -/
def question_is_skipped (questions : List Question) (context : Context) (i : Nat) : Bool :=
  match (questions.getD i default_question).skip_if with
  | none => false
  | some c =>
    match evaluate_skip_if c context with
    | Except.ok true => true
    | _ => false

/-- Python `str.strip()`: removes leading and trailing whitespace.  (The
library `String.trim` is extensionally the same but is not structurally
recursive, so this list-based form is used to keep evaluation inside the
kernel.) -/
def py_strip (s : String) : String :=
  String.mk
    (((s.data.dropWhile Char.isWhitespace).reverse.dropWhile
      Char.isWhitespace).reverse)

/-- The emptiness test of `go_next`: `value is None or (isinstance(value,
str) and value.strip() == "")`. -/
def is_empty_value : Value → Bool
  | Value.vnone => true
  | Value.vstr s => decide (py_strip s = "")
  | _ => false

/-- Context construction used by every handler in `gui.py`:
`context[q["variable"]] = args[i]` for each question in order. -/
def build_context (questions : List Question) (args : List Value) : Context :=
  (questions.zip args).map (fun p => (p.1.var_name, p.2))

/-- The forward (`direction = 1`) instance of the scan loop of
`logic.find_next_valid_question`, on fuel.  In range: return `idx` when the
question there has no `skip_if` or its `skip_if` evaluates false, otherwise
step to `idx + 1`.  Once out of range the source computes
`final_idx = idx if idx >= len(questions) else 0`. -/
def scan_forward (questions : List Question) (context : Context) :
    Nat → Int → Except String Int
  | 0, idx =>
    Except.ok (if (questions.length : Int) ≤ idx then idx else 0)
  | fuel + 1, idx =>
    if 0 ≤ idx ∧ idx < (questions.length : Int) then
      match (questions.getD idx.toNat default_question).skip_if with
      | none => Except.ok idx
      | some c =>
        match evaluate_skip_if c context with
        | Except.error e => Except.error e
        | Except.ok b =>
          if b then scan_forward questions context fuel (idx + 1)
          else Except.ok idx
    else
      Except.ok (if (questions.length : Int) ≤ idx then idx else 0)

/-- The backward (`direction = -1`) instance of the same scan loop. -/
def scan_backward (questions : List Question) (context : Context) :
    Nat → Int → Except String Int
  | 0, idx =>
    Except.ok (if (questions.length : Int) ≤ idx then idx else 0)
  | fuel + 1, idx =>
    if 0 ≤ idx ∧ idx < (questions.length : Int) then
      match (questions.getD idx.toNat default_question).skip_if with
      | none => Except.ok idx
      | some c =>
        match evaluate_skip_if c context with
        | Except.error e => Except.error e
        | Except.ok b =>
          if b then scan_backward questions context fuel (idx - 1)
          else Except.ok idx
    else
      Except.ok (if (questions.length : Int) ≤ idx then idx else 0)

/-- Model of `logic.find_next_valid_question` (spec name `find_next_eligible`):
starts at `current_idx + direction` and scans.  The repository only ever
calls it with `direction` 1 or -1 (the `while` loop need not terminate for
other step values); fuel `questions.length + 1` bounds both loops. -/
def find_next_valid_question (current_idx : Int) (questions : List Question)
    (context : Context) (direction : Int) : Except String Int :=
  if direction = 1 then
    scan_forward questions context (questions.length + 1) (current_idx + 1)
  else if direction = -1 then
    scan_backward questions context (questions.length + 1) (current_idx - 1)
  else
    Except.error "unsupported direction"

/-- The index-resolution loop at the top of `gui.update_question_display`:
starting at `current_idx`, step forward while the question in range has a
`skip_if` that evaluates true; unlike `find_next_valid_question` the exit
value is the raw loop index (no clamp). -/
def resolve_display_idx (questions : List Question) (context : Context) :
    Nat → Int → Except String Int
  | 0, idx => Except.ok idx
  | fuel + 1, idx =>
    if 0 ≤ idx ∧ idx < (questions.length : Int) then
      match (questions.getD idx.toNat default_question).skip_if with
      | none => Except.ok idx
      | some c =>
        match evaluate_skip_if c context with
        | Except.error e => Except.error e
        | Except.ok b =>
          if b then resolve_display_idx questions context fuel (idx + 1)
          else Except.ok idx
    else
      Except.ok idx

/-- The eligible-question count of `update_question_display`:
`sum(1 for q in l if ("skip_if" not in q) or (not evaluate_skip_if(...)))`.
Both `total_valid` (over all questions) and `current_valid` (over
`questions[:display_idx + 1]`) use this formula. -/
def count_valid (l : List Question) (context : Context) : Except String Nat :=
  match l with
  | [] => Except.ok 0
  | q :: rest =>
    match question_is_eligible q context with
    | Except.error e => Except.error e
    | Except.ok b =>
      match count_valid rest context with
      | Except.error e => Except.error e
      | Except.ok n => Except.ok (if b then n + 1 else n)

/-- The per-question component update emitted by `update_question_display`:
row visibility, widget interactivity, and the echoed widget value. -/
structure QUpdate where
  visible : Bool
  interactive : Bool
  value : Value
deriving DecidableEq, Repr

/-- The per-index update loop of `update_question_display` (`for i in
range(start_idx, end_idx)`), over the enumerated question list:
questions at `i ≤ current_idx` are visible iff their own condition is met
and interactive only at the resolved `display_idx`; questions past
`current_idx` are hidden and non-interactive. -/
def build_row_updates (context : Context) (args : List Value)
    (current_idx display_idx : Int) :
    List (Nat × Question) → Except String (List (Nat × QUpdate))
  | [] => Except.ok []
  | (i, q) :: rest =>
    match question_is_eligible q context with
    | Except.error e => Except.error e
    | Except.ok met =>
      match build_row_updates context args current_idx display_idx rest with
      | Except.error e => Except.error e
      | Except.ok tail =>
        Except.ok ((i, QUpdate.mk
          (if (i : Int) ≤ current_idx then met else false)
          (if (i : Int) ≤ current_idx then
            (decide ((i : Int) = display_idx) && met)
          else false)
          (args.getD i Value.vnone)) :: tail)

/-- The value computed by `gui.update_question_display`: the component
updates for the recomputed window, navigation-button visibility, the
progress label, the two eligible-question counts feeding it, and the new
value stored into the `current_question_idx` state. -/
structure DisplayResult where
  row_updates : List (Nat × QUpdate)
  prev_visible : Bool
  next_visible : Bool
  next_label : String
  current_valid : Nat
  total_valid : Nat
  new_idx : Int
deriving DecidableEq, Repr

/-- Model of `gui.update_question_display`: builds the context from the submitted
widget values, re-resolves the index through `skip_if` conditions, then
projects visibility / interactivity for indices in
`[max(0, display_idx - 1), len(questions))` and the progress counts.  Any
`evaluate_skip_if` failure propagates (the source raises). -/
def update_question_display (questions : List Question) (current_idx : Int)
    (args : List Value) : Except String DisplayResult :=
  match resolve_display_idx questions (build_context questions args)
      (questions.length + 1) current_idx with
  | Except.error e => Except.error e
  | Except.ok display_idx =>
    match build_row_updates (build_context questions args) args current_idx
        display_idx (questions.enum.drop (max 0 (display_idx - 1)).toNat) with
    | Except.error e => Except.error e
    | Except.ok updates =>
      match count_valid questions (build_context questions args) with
      | Except.error e => Except.error e
      | Except.ok total_valid =>
        match count_valid (questions.take (display_idx + 1).toNat)
            (build_context questions args) with
        | Except.error e => Except.error e
        | Except.ok current_valid =>
          Except.ok
            (DisplayResult.mk updates
              (decide (0 < display_idx)
                && decide (display_idx < (questions.length : Int)))
              (decide (display_idx < (questions.length : Int)))
              (if display_idx < (questions.length : Int) then
                if 0 < total_valid then
                  "Suivant (Question " ++ toString current_valid ++ " / "
                    ++ toString total_valid ++ ")"
                else "Suivant"
              else "Termine")
              current_valid total_valid display_idx)

/-- The PDF-inclusion flags of a scoring result. -/
structure PdfOptions where
  include_md_in_pdf : Bool
  include_data_in_pdf : Bool
deriving DecidableEq, Repr

/-- The triple a scoring function returns: markdown, table (header row then
data rows, all values stringified), PDF options. -/
abbrev ScoringRaw := String × List (List String) × PdfOptions

/-- The rectangularity loop of `execute_scoring_python`: every data row
must have as many columns as the header row. -/
def check_rectangular (header_len : Nat) :
    Nat → List (List String) → Except String Unit
  | _, [] => Except.ok ()
  | i, row :: rest =>
    if row.length = header_len then check_rectangular header_len (i + 1) rest
    else
      Except.error
        ("Row " ++ toString i ++ " has " ++ toString row.length
          ++ " columns but headers have " ++ toString header_len ++ " columns")

/-- Body of the `try` block of `scoring.execute_scoring_python`: runs the
user scoring function (modelled as the opaque `score` argument, covering
`exec` + the namespace lookup + the call), then validates that the table is
non-empty and rectangular.  Type-shape checks (`isinstance` tests, arity of
the tuple) are enforced by the Lean types. -/
def execute_scoring_python_inner (score : Context → Except String ScoringRaw)
    (inputs : Context) : Except String ScoringRaw :=
  match score inputs with
  | Except.error e => Except.error e
  | Except.ok r =>
    if r.2.1.length = 0 then
      Except.error "Table data must have at least one row (headers)"
    else
      match check_rectangular (r.2.1.headD []).length 1 r.2.1.tail with
      | Except.error e => Except.error e
      | Except.ok _ => Except.ok r

/-- Model of `scoring.execute_scoring_python`: the body above wrapped by
the `except` clause that re-raises everything as a `RuntimeError` with a
fixed prefix. -/
def execute_scoring_python (score : Context → Except String ScoringRaw)
    (inputs : Context) : Except String ScoringRaw :=
  match execute_scoring_python_inner score inputs with
  | Except.ok r => Except.ok r
  | Except.error e =>
    Except.error ("Erreur lors de l execution du scoring Python: " ++ e)

/-- Model of `scoring.execute_scoring_r`: runs the R scoring function and converts
its result (the opaque `score` argument covers `ro.r(code)`, the call and
the element-wise string conversion).  The arity check on the returned list
is enforced by the Lean triple type; the conversion performs no emptiness
or rectangularity validation of the table. -/
def execute_scoring_r (score : Context → Except String ScoringRaw)
    (inputs : Context) : Except String ScoringRaw :=
  score inputs

/-- Model of `scoring.execute_scoring`: dispatch on the scoring language. -/
def execute_scoring (language : String)
    (score : Context → Except String ScoringRaw) (inputs : Context) :
    Except String ScoringRaw :=
  if language = "r" then execute_scoring_r score inputs
  else if language = "python" then execute_scoring_python score inputs
  else Except.error ("Langage de scoring non supporte: " ++ language)

/-- A Gradio component update as `go_next` emits it for the result panel,
the PDF download button and the error box: left untouched (rejection
paths), hidden, or shown with a value. -/
inductive CompUpdate where
  | absent : CompUpdate
  | hidden : CompUpdate
  | shown : String → CompUpdate
deriving DecidableEq, Repr

/-- The value computed by `gui.go_next`: the display projection, the
`gr.Warning` messages raised on the way, and the updates for the result /
PDF / error components. -/
structure GoNextResult where
  display : DisplayResult
  warnings : List String
  result_output : CompUpdate
  pdf_download : CompUpdate
  error_output : CompUpdate
deriving DecidableEq, Repr

/-- The terminal `try` block of `go_next`: `execute_scoring` followed by
`generate_pdf_report` (the report generator is the opaque `gen_report`
argument); returns the scoring markdown and the PDF path. -/
def run_scoring_and_report (language : String)
    (score : Context → Except String ScoringRaw)
    (gen_report : Context → String → List (List String) → PdfOptions →
      Except String String)
    (inputs : Context) : Except String (String × String) :=
  match execute_scoring language score inputs with
  | Except.error e => Except.error e
  | Except.ok r =>
    match gen_report inputs r.1 r.2.1 r.2.2 with
    | Except.error e => Except.error e
    | Except.ok path => Except.ok (r.1, path)

/-- The tail of `go_next` after both validation gates have passed: find the
next eligible question, recompute the display, and at the terminal index
run scoring + report generation, exposing results on success and the error
message (with results hidden) on failure. -/
def go_next_advance (questions : List Question) (language : String)
    (score : Context → Except String ScoringRaw)
    (gen_report : Context → String → List (List String) → PdfOptions →
      Except String String)
    (current_idx : Nat) (args : List Value) : Except String GoNextResult :=
  match find_next_valid_question current_idx questions
      (build_context questions args) 1 with
  | Except.error e => Except.error e
  | Except.ok new_idx =>
    match update_question_display questions new_idx args with
    | Except.error e => Except.error e
    | Except.ok u =>
      if (questions.length : Int) ≤ new_idx then
        match run_scoring_and_report language score gen_report
            (build_context questions args) with
        | Except.ok r =>
          Except.ok
            (GoNextResult.mk u [] (CompUpdate.shown r.1)
              (CompUpdate.shown r.2) CompUpdate.hidden)
        | Except.error e =>
          Except.ok
            (GoNextResult.mk u [] CompUpdate.hidden CompUpdate.hidden
              (CompUpdate.shown e))
      else
        Except.ok
          (GoNextResult.mk u [] CompUpdate.hidden CompUpdate.hidden
            CompUpdate.hidden)

/-- The `valid_if` gate of `go_next` (and everything after it): on
evaluation failure or a false verdict the transition is rejected — a
warning is raised (the question's own `invalid_message` when present, else
a generic message) and the display is recomputed for the unchanged
`current_idx`. -/
def go_next_validate (questions : List Question) (language : String)
    (score : Context → Except String ScoringRaw)
    (gen_report : Context → String → List (List String) → PdfOptions →
      Except String String)
    (current_idx : Nat) (args : List Value) : Except String GoNextResult :=
  match (questions.getD current_idx default_question).valid_if with
  | none => go_next_advance questions language score gen_report current_idx args
  | some cond =>
    match evaluate_valid_if cond (build_context questions args) with
    | Except.error e =>
      match update_question_display questions current_idx args with
      | Except.error e2 => Except.error e2
      | Except.ok u =>
        Except.ok
          (GoNextResult.mk u ["Erreur lors de la validation: " ++ e]
            CompUpdate.absent CompUpdate.absent CompUpdate.absent)
    | Except.ok false =>
      match update_question_display questions current_idx args with
      | Except.error e2 => Except.error e2
      | Except.ok u =>
        Except.ok
          (GoNextResult.mk u
            [(questions.getD current_idx default_question).invalid_message.getD
              ("La reponse a la question actuelle n est pas valide: "
                ++ (questions.getD current_idx default_question).question)]
            CompUpdate.absent CompUpdate.absent CompUpdate.absent)
    | Except.ok true =>
      go_next_advance questions language score gen_report current_idx args

/-- Model of `gui.go_next`: the answered-or-defaulted gate followed by
`go_next_validate`.  A question with no declared default whose current
value is empty rejects the transition with a warning naming the question
and a display recomputed for the unchanged `current_idx`. -/
def go_next (questions : List Question) (language : String)
    (score : Context → Except String ScoringRaw)
    (gen_report : Context → String → List (List String) → PdfOptions →
      Except String String)
    (current_idx : Nat) (args : List Value) : Except String GoNextResult :=
  if !(questions.getD current_idx default_question).has_default
      && is_empty_value (args.getD current_idx Value.vnone) then
    match update_question_display questions current_idx args with
    | Except.error e => Except.error e
    | Except.ok u =>
      Except.ok
        (GoNextResult.mk u
          ["Veuillez repondre a la question actuelle avant de continuer: "
            ++ (questions.getD current_idx default_question).question]
          CompUpdate.absent CompUpdate.absent CompUpdate.absent)
  else go_next_validate questions language score gen_report current_idx args

/-- Model of `gui.go_prev`: builds the context and retreats through
`find_next_valid_question` with direction -1, then recomputes the display
— no validation gate. -/
def go_prev (questions : List Question) (current_idx : Int)
    (args : List Value) : Except String DisplayResult :=
  match find_next_valid_question current_idx questions
      (build_context questions args) (-1) with
  | Except.error e => Except.error e
  | Except.ok new_idx => update_question_display questions new_idx args

/-! Helper lemmas about the scan loops. -/

/-- A question with no `skip_if` is eligible. -/
theorem question_is_eligible_of_none {q : Question} (context : Context)
    (h : q.skip_if = none) :
    question_is_eligible q context = Except.ok true := by
  simp only [question_is_eligible, h]

/-- Eligibility of a question whose `skip_if` evaluates cleanly. -/
theorem question_is_eligible_of_eval {q : Question} {context : Context}
    {c : Expr} {b : Bool} (h : q.skip_if = some c)
    (heval : evaluate_skip_if c context = Except.ok b) :
    question_is_eligible q context = Except.ok (!b) := by
  simp only [question_is_eligible, h, heval]

/-- Unfolding of `question_is_skipped = true`. -/
theorem skipped_spec {questions : List Question} {context : Context} {i : Nat}
    (h : question_is_skipped questions context i = true) :
    ∃ c, (questions.getD i default_question).skip_if = some c ∧
      evaluate_skip_if c context = Except.ok true := by
  unfold question_is_skipped at h
  split at h
  · exact absurd h (by simp)
  next c heq =>
    split at h
    next heval => exact ⟨c, heq, heval⟩
    next => exact absurd h (by simp)

/-- Introduction form of `question_is_skipped`. -/
theorem skipped_intro {questions : List Question} {context : Context}
    {i : Nat} {c : Expr}
    (hskip : (questions.getD i default_question).skip_if = some c)
    (heval : evaluate_skip_if c context = Except.ok true) :
    question_is_skipped questions context i = true := by
  simp only [question_is_skipped, hskip, heval]

/-- A forward scan that ends in range ends on an eligible question. -/
theorem scan_forward_eligible (questions : List Question) (context : Context) :
    ∀ (fuel : Nat) (idx r : Int), 0 ≤ idx →
      (questions.length : Int) ≤ idx + fuel →
      scan_forward questions context fuel idx = Except.ok r →
      r < (questions.length : Int) →
      question_is_eligible (questions.getD r.toNat default_question) context
        = Except.ok true := by
  intro fuel
  induction fuel with
  | zero =>
    intro idx r h0 hfuel hscan hr
    simp only [scan_forward] at hscan
    rw [if_pos (by omega)] at hscan
    injection hscan with h
    omega
  | succ fuel ih =>
    intro idx r h0 hfuel hscan hr
    rw [scan_forward] at hscan
    split at hscan
    · next hin =>
      split at hscan
      · next hskip =>
        injection hscan with h
        subst h
        exact question_is_eligible_of_none context hskip
      · next c hskip =>
        split at hscan
        · exact absurd hscan (by simp)
        · next b heval =>
          split at hscan
          · next hb =>
            exact ih (idx + 1) r (by omega) (by omega) hscan hr
          · next hb =>
            injection hscan with h
            subst h
            rw [question_is_eligible_of_eval hskip heval]
            simp [Bool.not_eq_true] at hb
            simp [hb]
    · next hin =>
      rw [if_pos (by omega)] at hscan
      injection hscan with h
      omega

/-- A backward scan never returns a negative index. -/
theorem scan_backward_nonneg (questions : List Question) (context : Context) :
    ∀ (fuel : Nat) (idx r : Int),
      scan_backward questions context fuel idx = Except.ok r → 0 ≤ r := by
  intro fuel
  induction fuel with
  | zero =>
    intro idx r hscan
    simp only [scan_backward] at hscan
    split at hscan <;> · injection hscan with h; omega
  | succ fuel ih =>
    intro idx r hscan
    rw [scan_backward] at hscan
    split at hscan
    · next hin =>
      split at hscan
      · injection hscan with h; omega
      · split at hscan
        · exact absurd hscan (by simp)
        · split at hscan
          · exact ih _ _ hscan
          · injection hscan with h; omega
    · split at hscan <;> · injection hscan with h; omega

/-- A backward scan that ends in range ends on an eligible question or on
the clamp value 0. -/
theorem scan_backward_eligible_or_zero (questions : List Question)
    (context : Context) :
    ∀ (fuel : Nat) (idx r : Int),
      scan_backward questions context fuel idx = Except.ok r →
      r < (questions.length : Int) →
      question_is_eligible (questions.getD r.toNat default_question) context
        = Except.ok true ∨ r = 0 := by
  intro fuel
  induction fuel with
  | zero =>
    intro idx r hscan hr
    simp only [scan_backward] at hscan
    split at hscan
    · injection hscan with h; omega
    · injection hscan with h; omega
  | succ fuel ih =>
    intro idx r hscan hr
    rw [scan_backward] at hscan
    split at hscan
    · next hin =>
      split at hscan
      · next hskip =>
        injection hscan with h
        subst h
        exact Or.inl (question_is_eligible_of_none context hskip)
      · next c hskip =>
        split at hscan
        · exact absurd hscan (by simp)
        · next b heval =>
          split at hscan
          · exact ih _ _ hscan hr
          · next hb =>
            injection hscan with h
            subst h
            refine Or.inl ?_
            rw [question_is_eligible_of_eval hskip heval]
            simp [Bool.not_eq_true] at hb
            simp [hb]
    · split at hscan
      · injection hscan with h; omega
      · injection hscan with h; omega

/-- When every question at or below the start index is skipped, the
backward scan walks off the front and returns the clamp value 0. -/
theorem scan_backward_all_skipped (questions : List Question)
    (context : Context) :
    ∀ (fuel : Nat) (idx : Int), idx < (questions.length : Int) →
      (∀ i : Nat, (i : Int) ≤ idx → i < questions.length →
        question_is_skipped questions context i = true) →
      scan_backward questions context fuel idx = Except.ok 0 := by
  intro fuel
  induction fuel with
  | zero =>
    intro idx hlt _
    simp only [scan_backward]
    rw [if_neg (by omega)]
  | succ fuel ih =>
    intro idx hlt hall
    rw [scan_backward]
    split
    · next hin =>
      obtain ⟨c, hskip, heval⟩ :=
        skipped_spec (hall idx.toNat (by omega) (by omega))
      simp only [hskip, heval, if_pos]
      exact ih (idx - 1) (by omega) (fun i h1 h2 => hall i (by omega) h2)
    · next hin =>
      rw [if_neg (by omega)]

/-- When every question strictly in range above the start index is skipped,
the forward scan walks off the end and returns `questions.length`. -/
theorem scan_forward_all_skipped (questions : List Question)
    (context : Context) :
    ∀ (fuel : Nat) (idx : Int), 0 ≤ idx → idx ≤ (questions.length : Int) →
      (questions.length : Int) ≤ idx + fuel →
      (∀ i : Nat, idx ≤ (i : Int) → i < questions.length →
        question_is_skipped questions context i = true) →
      scan_forward questions context fuel idx
        = Except.ok (questions.length : Int) := by
  intro fuel
  induction fuel with
  | zero =>
    intro idx h0 hle hfuel _
    simp only [scan_forward]
    rw [if_pos (by omega)]
    congr 1
    omega
  | succ fuel ih =>
    intro idx h0 hle hfuel hall
    rw [scan_forward]
    split
    · next hin =>
      obtain ⟨c, hskip, heval⟩ :=
        skipped_spec (hall idx.toNat (by omega) (by omega))
      simp only [hskip, heval, if_pos]
      exact ih (idx + 1) (by omega) (by omega) (by omega)
        (fun i h1 h2 => hall i (by omega) h2)
    · next hin =>
      rw [if_pos (by omega)]
      congr 1
      omega

/-- Characterization of the display-index resolution loop: it lands on the
first eligible index at or after the start (or on `questions.length`),
skipping exactly the skipped questions in between. -/
theorem resolve_spec (questions : List Question) (context : Context) :
    ∀ (fuel : Nat) (idx r : Int), 0 ≤ idx →
      idx ≤ (questions.length : Int) →
      (questions.length : Int) ≤ idx + fuel →
      resolve_display_idx questions context fuel idx = Except.ok r →
      idx ≤ r ∧ r ≤ (questions.length : Int) ∧
        (r = (questions.length : Int) ∨
          question_is_eligible (questions.getD r.toNat default_question)
            context = Except.ok true) ∧
        (∀ j : Nat, idx ≤ (j : Int) → (j : Int) < r →
          question_is_skipped questions context j = true) := by
  intro fuel
  induction fuel with
  | zero =>
    intro idx r h0 hle hfuel hres
    simp only [resolve_display_idx] at hres
    injection hres with h
    subst h
    exact ⟨le_refl _, by omega, Or.inl (by omega), fun j h1 h2 => by omega⟩
  | succ fuel ih =>
    intro idx r h0 hle hfuel hres
    rw [resolve_display_idx] at hres
    split at hres
    · next hin =>
      split at hres
      · next hskip =>
        injection hres with h
        subst h
        exact ⟨le_refl _, by omega,
          Or.inr (question_is_eligible_of_none context hskip),
          fun j h1 h2 => by omega⟩
      · next c hskip =>
        split at hres
        · exact absurd hres (by simp)
        · next b heval =>
          split at hres
          · next hb =>
            subst hb
            obtain ⟨h1, h2, h3, h4⟩ :=
              ih (idx + 1) r (by omega) (by omega) (by omega) hres
            refine ⟨by omega, h2, h3, ?_⟩
            intro j hj1 hj2
            by_cases hj : (j : Int) = idx
            · have : j = idx.toNat := by omega
              subst this
              exact skipped_intro hskip heval
            · exact h4 j (by omega) hj2
          · next hb =>
            injection hres with h
            subst h
            refine ⟨le_refl _, by omega, Or.inr ?_, fun j h1 h2 => by omega⟩
            rw [question_is_eligible_of_eval hskip heval]
            simp [Bool.not_eq_true] at hb
            simp [hb]
    · next hin =>
      injection hres with h
      subst h
      exact ⟨le_refl _, by omega, Or.inl (by omega), fun j h1 h2 => by omega⟩

/-- The resolution loop does not move when the question at the start index
is eligible. -/
theorem resolve_at_eligible (questions : List Question) (context : Context)
    (fuel : Nat) (idx : Int)
    (h : question_is_eligible (questions.getD idx.toNat default_question)
      context = Except.ok true) :
    resolve_display_idx questions context (fuel + 1) idx = Except.ok idx := by
  rw [resolve_display_idx]
  split
  · next hin =>
    cases hskip : (questions.getD idx.toNat default_question).skip_if with
    | none => simp [hskip]
    | some c =>
      simp only [question_is_eligible, hskip] at h
      cases heval : evaluate_skip_if c context with
      | error e => rw [heval] at h; exact absurd h (by simp)
      | ok b =>
        rw [heval] at h
        injection h with h
        simp only [hskip, heval]
        have hb : b = false := by
          cases b
          · rfl
          · exact absurd h (by simp)
        subst hb
        simp
  · rfl

/-- The resolution loop does not move when the start index is out of
range (in particular at the terminal index `questions.length`). -/
theorem resolve_out_of_range (questions : List Question) (context : Context)
    (fuel : Nat) (idx : Int)
    (h : ¬(0 ≤ idx ∧ idx < (questions.length : Int))) :
    resolve_display_idx questions context fuel idx = Except.ok idx := by
  cases fuel with
  | zero => rfl
  | succ fuel =>
    rw [resolve_display_idx]
    rw [if_neg h]

/-- A prefix count of eligible questions never exceeds the full count. -/
theorem count_valid_take_le (context : Context) :
    ∀ (l : List Question) (k m n : Nat),
      count_valid (l.take k) context = Except.ok m →
      count_valid l context = Except.ok n → m ≤ n := by
  intro l
  induction l with
  | nil =>
    intro k m n hm hn
    simp only [List.take_nil, count_valid] at hm hn
    injection hm with hm
    injection hn with hn
    omega
  | cons q rest ih =>
    intro k m n hm hn
    cases k with
    | zero =>
      simp only [List.take_zero, count_valid] at hm
      injection hm with hm
      omega
    | succ k =>
      rw [List.take_succ_cons] at hm
      rw [count_valid] at hm hn
      cases helig : question_is_eligible q context with
      | error e => rw [helig] at hm; exact absurd hm (by simp)
      | ok b =>
        rw [helig] at hm hn
        cases hm' : count_valid (rest.take k) context with
        | error e => rw [hm'] at hm; exact absurd hm (by simp)
        | ok m' =>
          cases hn' : count_valid rest context with
          | error e => rw [hn'] at hn; exact absurd hn (by simp)
          | ok n' =>
            rw [hm'] at hm
            rw [hn'] at hn
            injection hm with hm
            injection hn with hn
            have := ih k m' n' hm' hn'
            cases b <;> simp at hm hn <;> omega

/-- Prefix counts of eligible questions are monotone in the prefix
length. -/
theorem count_valid_take_mono (context : Context) (l : List Question)
    (k1 k2 m1 m2 : Nat) (hk : k1 ≤ k2)
    (h1 : count_valid (l.take k1) context = Except.ok m1)
    (h2 : count_valid (l.take k2) context = Except.ok m2) : m1 ≤ m2 := by
  have heq : l.take k1 = (l.take k2).take k1 := by
    rw [List.take_take, min_eq_left hk]
  rw [heq] at h1
  exact count_valid_take_le context (l.take k2) k1 m1 m2 h1 h2

/-- In the emitted row updates, a widget marked interactive can only sit at
the resolved display index. -/
theorem build_interactive_only_display (context : Context) (args : List Value)
    (current_idx display_idx : Int) :
    ∀ (L : List (Nat × Question)) (res : List (Nat × QUpdate)),
      build_row_updates context args current_idx display_idx L
        = Except.ok res →
      ∀ p ∈ res, p.2.interactive = true → (p.1 : Int) = display_idx := by
  intro L
  induction L with
  | nil =>
    intro res hbuild p hp
    simp only [build_row_updates] at hbuild
    injection hbuild with h
    subst h
    exact absurd hp (by simp)
  | cons hd rest ih =>
    intro res hbuild p hp hint
    obtain ⟨i, q⟩ := hd
    rw [build_row_updates] at hbuild
    cases helig : question_is_eligible q context with
    | error e => rw [helig] at hbuild; exact absurd hbuild (by simp)
    | ok met =>
      rw [helig] at hbuild
      cases htail : build_row_updates context args current_idx display_idx
          rest with
      | error e => rw [htail] at hbuild; exact absurd hbuild (by simp)
      | ok tail =>
        rw [htail] at hbuild
        injection hbuild with h
        subst h
        rcases List.mem_cons.mp hp with hhead | htl
        · subst hhead
          simp only at hint
          split at hint
          · next hle =>
            simp only [Bool.and_eq_true, decide_eq_true_eq] at hint
            exact hint.1
          · exact absurd hint (by simp)
        · exact ih tail htail p htl hint

/-- In the emitted row updates, every question past the input index is
hidden. -/
theorem build_hidden_future (context : Context) (args : List Value)
    (current_idx display_idx : Int) :
    ∀ (L : List (Nat × Question)) (res : List (Nat × QUpdate)),
      build_row_updates context args current_idx display_idx L
        = Except.ok res →
      ∀ p ∈ res, current_idx < (p.1 : Int) → p.2.visible = false := by
  intro L
  induction L with
  | nil =>
    intro res hbuild p hp
    simp only [build_row_updates] at hbuild
    injection hbuild with h
    subst h
    exact absurd hp (by simp)
  | cons hd rest ih =>
    intro res hbuild p hp hgt
    obtain ⟨i, q⟩ := hd
    rw [build_row_updates] at hbuild
    cases helig : question_is_eligible q context with
    | error e => rw [helig] at hbuild; exact absurd hbuild (by simp)
    | ok met =>
      rw [helig] at hbuild
      cases htail : build_row_updates context args current_idx display_idx
          rest with
      | error e => rw [htail] at hbuild; exact absurd hbuild (by simp)
      | ok tail =>
        rw [htail] at hbuild
        injection hbuild with h
        subst h
        rcases List.mem_cons.mp hp with hhead | htl
        · subst hhead
          simp only
          rw [if_neg (by omega)]
        · exact ih tail htail p htl hgt

/-- Every index listed in the scanned window receives an update, and an
eligible question sitting at the resolved display index (when that is at or
below the input index) is marked interactive. -/
theorem build_interactive_at_display (context : Context) (args : List Value)
    (current_idx display_idx : Int) :
    ∀ (L : List (Nat × Question)) (res : List (Nat × QUpdate))
      (i : Nat) (q : Question),
      build_row_updates context args current_idx display_idx L
        = Except.ok res →
      (i, q) ∈ L →
      question_is_eligible q context = Except.ok true →
      (i : Int) ≤ current_idx → (i : Int) = display_idx →
      ∃ upd, (i, upd) ∈ res ∧ upd.interactive = true := by
  intro L
  induction L with
  | nil =>
    intro res i q _ hmem
    exact absurd hmem (by simp)
  | cons hd rest ih =>
    intro res i q hbuild hmem helig hle heq
    obtain ⟨i0, q0⟩ := hd
    rw [build_row_updates] at hbuild
    cases helig0 : question_is_eligible q0 context with
    | error e => rw [helig0] at hbuild; exact absurd hbuild (by simp)
    | ok met =>
      rw [helig0] at hbuild
      cases htail : build_row_updates context args current_idx display_idx
          rest with
      | error e => rw [htail] at hbuild; exact absurd hbuild (by simp)
      | ok tail =>
        rw [htail] at hbuild
        injection hbuild with h
        subst h
        rcases List.mem_cons.mp hmem with hhead | htl
        · injection hhead with h1 h2
          subst h1
          subst h2
          rw [helig] at helig0
          injection helig0 with hmet
          subst hmet
          refine ⟨_, List.mem_cons_self _ _, ?_⟩
          simp only
          rw [if_pos hle]
          simp [heq]
        · obtain ⟨upd, hupd, hint⟩ := ih tail i q htail htl helig hle heq
          exact ⟨upd, List.mem_cons_of_mem _ hupd, hint⟩

/-- Membership of an in-window index in the enumerated question list. -/
theorem enum_drop_mem (l : List Question) (s k : Nat) (hs : s ≤ k)
    (hk : k < l.length) :
    (k, l.getD k default_question) ∈ l.enum.drop s := by
  obtain ⟨d, rfl⟩ : ∃ d, k = s + d := ⟨k - s, by omega⟩
  have hlen : d < (l.enum.drop s).length := by
    simp only [List.length_drop, List.enum_length]
    omega
  have hget : (l.enum.drop s)[d] = (s + d, l.getD (s + d) default_question) := by
    rw [List.getElem_drop]
    rw [List.getElem_enum]
    rw [List.getD_eq_getElem l default_question hk]
  rw [← hget]
  exact List.getElem_mem hlen

/-- Inversion of a successful `update_question_display` call into its
constituent computations. -/
theorem update_display_inversion {questions : List Question}
    {current_idx : Int} {args : List Value} {u : DisplayResult}
    (hupd : update_question_display questions current_idx args
      = Except.ok u) :
    ∃ display_idx updates total_valid current_valid,
      resolve_display_idx questions (build_context questions args)
        (questions.length + 1) current_idx = Except.ok display_idx ∧
      build_row_updates (build_context questions args) args current_idx
        display_idx (questions.enum.drop (max 0 (display_idx - 1)).toNat)
        = Except.ok updates ∧
      count_valid questions (build_context questions args)
        = Except.ok total_valid ∧
      count_valid (questions.take (display_idx + 1).toNat)
        (build_context questions args) = Except.ok current_valid ∧
      u.row_updates = updates ∧ u.new_idx = display_idx ∧
      u.current_valid = current_valid ∧ u.total_valid = total_valid := by
  unfold update_question_display at hupd
  split at hupd
  · exact absurd hupd (by simp)
  next display_idx hres =>
    split at hupd
    · exact absurd hupd (by simp)
    next updates hb =>
      split at hupd
      · exact absurd hupd (by simp)
      next total_valid ht =>
        split at hupd
        · exact absurd hupd (by simp)
        next current_valid hc =>
          injection hupd with h
          subst h
          exact ⟨display_idx, updates, total_valid, current_valid, hres, hb,
            ht, hc, rfl, rfl, rfl, rfl⟩

/-- A row of the wrong width makes the rectangularity check fail. -/
theorem check_rectangular_error (hl : Nat) :
    ∀ (rows : List (List String)) (i : Nat) (row : List String),
      row ∈ rows → row.length ≠ hl →
      ∃ m, check_rectangular hl i rows = Except.error m := by
  intro rows
  induction rows with
  | nil =>
    intro i row h
    exact absurd h (by simp)
  | cons r rest ih =>
    intro i row hmem hne
    rw [check_rectangular]
    by_cases hr : r.length = hl
    · rw [if_pos hr]
      rcases List.mem_cons.mp hmem with hhead | htl
      · subst hhead
        exact absurd hr hne
      · exact ih (i + 1) row htl hne
    · rw [if_neg hr]
      exact ⟨_, rfl⟩

/-! The claim theorems. -/

/-- C9: `evaluate_skip_if` and `evaluate_valid_if` are extensionally equal:
for every condition expression and every context, either both return the
same boolean, or both raise an error — the single evaluation behaviour
serves both skip and validity semantics, and only the caller assigns
meaning. -/
theorem skip_and_valid_evaluators_agree (condition : Expr)
    (context : Context) :
    (∃ b, evaluate_skip_if condition context = Except.ok b ∧
      evaluate_valid_if condition context = Except.ok b) ∨
    (∃ m1 m2, evaluate_skip_if condition context = Except.error m1 ∧
      evaluate_valid_if condition context = Except.error m2) := by
  unfold evaluate_skip_if evaluate_valid_if
  cases evalExpr context condition with
  | ok v => exact Or.inl ⟨truthy v, rfl, rfl⟩
  | error e => exact Or.inr ⟨_, _, rfl, rfl⟩

/-- C1 (amended): a forward scan never returns an in-range index whose
`skip_if` evaluates true; a backward scan returns an eligible in-range
index, except that when no earlier question is eligible it clamps to
index 0 even if the question there is skipped. -/
theorem find_next_order_invariant_amended :
    (∀ (questions : List Question) (context : Context) (cur r : Int),
      0 ≤ cur →
      find_next_valid_question cur questions context 1 = Except.ok r →
      r < (questions.length : Int) →
      question_is_eligible (questions.getD r.toNat default_question) context
        = Except.ok true) ∧
    (∀ (questions : List Question) (context : Context) (cur r : Int),
      find_next_valid_question cur questions context (-1) = Except.ok r →
      0 ≤ r → r < (questions.length : Int) →
      question_is_eligible (questions.getD r.toNat default_question) context
        = Except.ok true ∨ r = 0) := by
  constructor
  · intro questions context cur r h0 hfind hr
    unfold find_next_valid_question at hfind
    rw [if_pos rfl] at hfind
    exact scan_forward_eligible questions context (questions.length + 1)
      (cur + 1) r (by omega) (by omega) hfind hr
  · intro questions context cur r hfind h0 hr
    unfold find_next_valid_question at hfind
    rw [if_neg (by decide), if_pos rfl] at hfind
    exact scan_backward_eligible_or_zero questions context _ _ _ hfind hr

/-- Question set refuting the order invariant in the backward direction:
question 0 is always skipped, question 1 is eligible. -/
def clamp_questions : List Question :=
  [Question.mk "a" "QA" (some (Expr.lit (Value.vbool true))) none none false,
   Question.mk "b" "QB" none none none false]

/-- C1 (counterexample): scanning backward from index 1 over
`clamp_questions` returns index 0 although the `skip_if` of question 0
evaluates true — the claimed invariant fails for direction -1. -/
theorem find_next_order_invariant_counterexample :
    find_next_valid_question 1 clamp_questions [] (-1) = Except.ok 0 ∧
    (clamp_questions.getD 0 default_question).skip_if
      = some (Expr.lit (Value.vbool true)) ∧
    evaluate_skip_if (Expr.lit (Value.vbool true)) [] = Except.ok true := by
  exact ⟨rfl, rfl, rfl⟩

/-- C1 (witness): the amended forward half applied to `clamp_questions` at
index 0 — the scan lands on index 1, which is eligible. -/
theorem find_next_order_invariant_witness :
    question_is_eligible (clamp_questions.getD (1 : Int).toNat
      default_question) [] = Except.ok true :=
  find_next_order_invariant_amended.1 clamp_questions [] 0 1 (by decide)
    rfl (by decide)

/-- C3: the asymmetric boundary policy of `find_next_valid_question`: a
forward scan from an in-range index with every later candidate skipped
returns `N = questions.length` (in particular forward from `N - 1` with no
later eligible question); a backward scan from an index in `[0, N]` with
every earlier question skipped returns 0, never returns a negative index,
and from index 0 always returns 0. -/
theorem find_next_boundary_policy :
    (∀ (questions : List Question) (context : Context) (cur : Int),
      0 ≤ cur → cur < (questions.length : Int) →
      (∀ i : Nat, cur < (i : Int) → i < questions.length →
        question_is_skipped questions context i = true) →
      find_next_valid_question cur questions context 1
        = Except.ok (questions.length : Int)) ∧
    (∀ (questions : List Question) (context : Context) (cur : Int),
      0 ≤ cur → cur ≤ (questions.length : Int) →
      (∀ i : Nat, (i : Int) < cur →
        question_is_skipped questions context i = true) →
      find_next_valid_question cur questions context (-1) = Except.ok 0) ∧
    (∀ (questions : List Question) (context : Context) (cur r : Int),
      find_next_valid_question cur questions context (-1) = Except.ok r →
      0 ≤ r) ∧
    (∀ (questions : List Question) (context : Context),
      find_next_valid_question 0 questions context (-1) = Except.ok 0) := by
  refine ⟨?_, ?_, ?_, ?_⟩
  · intro questions context cur h0 hlt hall
    unfold find_next_valid_question
    rw [if_pos rfl]
    exact scan_forward_all_skipped questions context (questions.length + 1)
      (cur + 1) (by omega) (by omega) (by omega)
      (fun i h1 h2 => hall i (by omega) h2)
  · intro questions context cur h0 hle hall
    unfold find_next_valid_question
    rw [if_neg (by decide), if_pos rfl]
    exact scan_backward_all_skipped questions context (questions.length + 1)
      (cur - 1) (by omega) (fun i h1 h2 => hall i (by omega))
  · intro questions context cur r hfind
    unfold find_next_valid_question at hfind
    rw [if_neg (by decide), if_pos rfl] at hfind
    exact scan_backward_nonneg questions context _ _ _ hfind
  · intro questions context
    unfold find_next_valid_question
    rw [if_neg (by decide), if_pos rfl]
    rw [scan_backward]
    rw [if_neg (by omega)]
    rw [if_neg (by omega)]

/-- One-question set with no predicates, used by several witnesses. -/
def plain_question : List Question :=
  [Question.mk "w" "QW" none none none false]

/-- C3 (witness): the boundary policy at a concrete one-question set:
forward from 0 (no later question at all) returns 1 = N, and backward from
0 returns 0. -/
theorem find_next_boundary_policy_witness :
    find_next_valid_question 0 plain_question [] 1 = Except.ok 1 ∧
    find_next_valid_question 0 plain_question [] (-1) = Except.ok 0 := by
  constructor
  · exact find_next_boundary_policy.1 plain_question [] 0 (by decide)
      (by decide)
      (by intro i h1 h2; exfalso; simp [plain_question] at h2; omega)
  · exact find_next_boundary_policy.2.2.2 plain_question []

/-- C8: for a fixed context, the eligible-question count over the prefix
`[0, display_idx]` (the `current_valid` of `update_question_display`) is
non-decreasing in `display_idx` and never exceeds the count over all
questions (its `total_valid`); and every successful projection satisfies
`current_valid ≤ total_valid`. -/
theorem progress_monotonicity :
    (∀ (questions : List Question) (context : Context) (d1 d2 : Int)
      (a b t : Nat), d1 ≤ d2 →
      count_valid (questions.take (d1 + 1).toNat) context = Except.ok a →
      count_valid (questions.take (d2 + 1).toNat) context = Except.ok b →
      count_valid questions context = Except.ok t →
      a ≤ b ∧ a ≤ t ∧ b ≤ t) ∧
    (∀ (questions : List Question) (args : List Value) (d : Int)
      (u : DisplayResult),
      update_question_display questions d args = Except.ok u →
      u.current_valid ≤ u.total_valid) := by
  constructor
  · intro questions context d1 d2 a b t hd ha hb ht
    refine ⟨count_valid_take_mono context questions _ _ a b (by omega) ha hb,
      count_valid_take_le context questions _ a t ha ht,
      count_valid_take_le context questions _ b t hb ht⟩
  · intro questions args d u hupd
    obtain ⟨display_idx, updates, total_valid, current_valid, hres, hbld,
      ht, hc, hru, hni, hcv, htv⟩ := update_display_inversion hupd
    rw [hcv, htv]
    exact count_valid_take_le (build_context questions args) questions _
      current_valid total_valid hc ht

/-- C8 (witness): the monotonicity bounds at the Scenario-B question set
with its context, for display indices 0 and 2. -/
theorem progress_monotonicity_witness :
    (0 : Nat) ≤ 1 ∧ (0 : Nat) ≤ 1 ∧ (1 : Nat) ≤ 1 :=
  progress_monotonicity.1 clamp_questions [] 0 2 0 1 1 (by decide) rfl rfl rfl

/-- C10: `update_question_display` re-resolves the index it is given
before projecting: for every input index in `[0, N]` and every submitted
value vector, the navigation index it returns is the smallest index at or
after the input whose question is eligible (or `N` when none is); an
emitted update marked interactive can only sit at that resolved index —
and the resolved question is marked interactive when the input index
itself is eligible and in range; and every emitted question strictly past
the input index is hidden. -/
theorem update_display_resolution (questions : List Question)
    (args : List Value) (d : Int) (u : DisplayResult)
    (h0 : 0 ≤ d) (hd : d ≤ (questions.length : Int))
    (hupd : update_question_display questions d args = Except.ok u) :
    (d ≤ u.new_idx ∧ u.new_idx ≤ (questions.length : Int) ∧
      (u.new_idx = (questions.length : Int) ∨
        question_is_eligible
          (questions.getD u.new_idx.toNat default_question)
          (build_context questions args) = Except.ok true) ∧
      (∀ j : Nat, d ≤ (j : Int) → (j : Int) < u.new_idx →
        question_is_skipped questions (build_context questions args) j
          = true)) ∧
    (∀ p ∈ u.row_updates, p.2.interactive = true →
      (p.1 : Int) = u.new_idx) ∧
    (∀ p ∈ u.row_updates, d < (p.1 : Int) → p.2.visible = false) ∧
    (u.new_idx = d → d < (questions.length : Int) →
      ∃ upd, (d.toNat, upd) ∈ u.row_updates ∧ upd.interactive = true) := by
  obtain ⟨display_idx, updates, total_valid, current_valid, hres, hbld, ht,
    hc, hru, hni, hcv, htv⟩ := update_display_inversion hupd
  obtain ⟨h1, h2, h3, h4⟩ := resolve_spec questions
    (build_context questions args) (questions.length + 1) d display_idx h0
    hd (by omega) hres
  refine ⟨?_, ?_, ?_, ?_⟩
  · rw [hni]
    exact ⟨h1, h2, h3, h4⟩
  · rw [hru, hni]
    exact build_interactive_only_display _ args d display_idx _ updates hbld
  · rw [hru]
    exact build_hidden_future _ args d display_idx _ updates hbld
  · intro heq hlt
    rw [hru]
    have hdisp : display_idx = d := by rw [← hni, heq]
    have helig : question_is_eligible
        (questions.getD d.toNat default_question)
        (build_context questions args) = Except.ok true := by
      rcases h3 with h | h
      · exact absurd (hdisp ▸ h) (by omega)
      · exact hdisp ▸ h
    have hmem : (d.toNat, questions.getD d.toNat default_question)
        ∈ questions.enum.drop (max 0 (display_idx - 1)).toNat :=
      enum_drop_mem questions _ d.toNat (by omega) (by omega)
    exact build_interactive_at_display _ args d display_idx _ updates
      d.toNat _ hbld hmem helig (by omega) (by omega)

/-- Projection emitted for `plain_question` at index 0 with value 1. -/
def plain_projection : DisplayResult :=
  DisplayResult.mk [(0, QUpdate.mk true true (Value.vint 1))] false true
    "Suivant (Question 1 / 1)" 1 1 0

/-- C10 (witness): the resolution theorem applied to the one-question set
at index 0 — the resolved index is 0 and the question there is emitted
interactive. -/
theorem update_display_resolution_witness :
    ((0 : Int) ≤ plain_projection.new_idx ∧
      plain_projection.new_idx ≤ (plain_question.length : Int) ∧
      (plain_projection.new_idx = (plain_question.length : Int) ∨
        question_is_eligible
          (plain_question.getD plain_projection.new_idx.toNat
            default_question)
          (build_context plain_question [Value.vint 1]) = Except.ok true) ∧
      (∀ j : Nat, (0 : Int) ≤ (j : Int) →
        (j : Int) < plain_projection.new_idx →
        question_is_skipped plain_question
          (build_context plain_question [Value.vint 1]) j = true)) ∧
    (∀ p ∈ plain_projection.row_updates, p.2.interactive = true →
      (p.1 : Int) = plain_projection.new_idx) ∧
    (∀ p ∈ plain_projection.row_updates, (0 : Int) < (p.1 : Int) →
      p.2.visible = false) ∧
    (plain_projection.new_idx = 0 → (0 : Int) < (plain_question.length : Int) →
      ∃ upd, ((0 : Int).toNat, upd) ∈ plain_projection.row_updates ∧
        upd.interactive = true) :=
  update_display_resolution plain_question [Value.vint 1] 0 plain_projection
    (by decide) (by decide) rfl

/-- C4 (amended): `execute_scoring` dispatched to the python path raises on
an empty or non-rectangular table, but the r path performs no table-shape
validation and returns the malformed result unchanged. -/
theorem scoring_table_validation_amended
    (score : Context → Except String ScoringRaw) (inputs : Context)
    (md : String) (table : List (List String)) (opts : PdfOptions)
    (hscore : score inputs = Except.ok (md, table, opts))
    (hbad : table = [] ∨
      ∃ row ∈ table.tail, row.length ≠ (table.headD []).length) :
    (∃ m, execute_scoring "python" score inputs = Except.error m) ∧
    execute_scoring "r" score inputs = Except.ok (md, table, opts) := by
  constructor
  · have hinner : ∃ m, execute_scoring_python_inner score inputs
        = Except.error m := by
      unfold execute_scoring_python_inner
      rw [hscore]
      rcases hbad with hempty | ⟨row, hrow, hlen⟩
      · subst hempty
        exact ⟨_, rfl⟩
      · have hne : ¬(table.length = 0) := by
          intro h
          rw [List.length_eq_zero] at h
          subst h
          simp at hrow
        obtain ⟨m, hm⟩ := check_rectangular_error (table.headD []).length
          table.tail 1 row hrow hlen
        show ∃ m2,
          (if table.length = 0 then
            (Except.error "Table data must have at least one row (headers)" :
              Except String ScoringRaw)
          else
            match check_rectangular (table.headD []).length 1 table.tail with
            | Except.error e => Except.error e
            | Except.ok _ => Except.ok (md, table, opts)) = Except.error m2
        rw [if_neg hne]
        rw [hm]
        exact ⟨m, rfl⟩
    obtain ⟨m, hm⟩ := hinner
    unfold execute_scoring
    rw [if_neg (by decide), if_pos rfl]
    unfold execute_scoring_python
    rw [hm]
    exact ⟨_, rfl⟩
  · unfold execute_scoring
    rw [if_pos rfl]
    unfold execute_scoring_r
    exact hscore

/-- Scoring stub returning a non-rectangular table: the data row has two
columns while the header row has one. -/
def bad_table_score : Context → Except String ScoringRaw :=
  fun _ => Except.ok ("md", [["a"], ["b", "c"]], PdfOptions.mk true true)

/-- C4 (counterexample): under the r language, `execute_scoring` returns
the non-rectangular table unchanged instead of raising — refuting the
claim that both supported languages raise on a malformed table. -/
theorem scoring_table_validation_counterexample :
    execute_scoring "r" bad_table_score []
      = Except.ok ("md", [["a"], ["b", "c"]], PdfOptions.mk true true) ∧
    (["b", "c"] : List String).length ≠ (["a"] : List String).length := by
  exact ⟨rfl, by decide⟩

/-- C4 (witness): the amended theorem applied to the same malformed
scoring function — the python path raises, the r path passes it
through. -/
theorem scoring_table_validation_witness :
    (∃ m, execute_scoring "python" bad_table_score [] = Except.error m) ∧
    execute_scoring "r" bad_table_score []
      = Except.ok ("md", [["a"], ["b", "c"]], PdfOptions.mk true true) :=
  scoring_table_validation_amended bad_table_score [] "md"
    [["a"], ["b", "c"]] (PdfOptions.mk true true) rfl
    (Or.inr ⟨["b", "c"], by decide, by decide⟩)

/-- The Scenario-B question set: the question at index 1 carries
`skip_if = "q1 == 'no'"`. -/
def scenario_b_questions : List Question :=
  [Question.mk "q1" "Question un" none none none false,
   Question.mk "q2" "Question deux"
     (some (Expr.eq (Expr.var "q1") (Expr.lit (Value.vstr "no")))) none none
     false,
   Question.mk "q3" "Question trois" none none none false]

/-- The Scenario-B submitted values: `q1 = "no"`, the rest unanswered. -/
def scenario_b_args : List Value :=
  [Value.vstr "no", Value.vnone, Value.vnone]

/-- Scoring stub for navigation-only scenarios where the terminal branch
is never reached. -/
def stub_score : Context → Except String ScoringRaw :=
  fun _ => Except.error "stub"

/-- Report-generation stub for navigation-only scenarios. -/
def stub_report :
    Context → String → List (List String) → PdfOptions →
      Except String String :=
  fun _ _ _ _ => Except.error "stub"

/-- C2 (amended): in Scenario B, advancing from index 0 lands directly on
index 2, but the progress computed there is `current_eligible = 2` of
`total_eligible = 2` (the landing index itself is the second eligible
question of the two), so the button label reads "Question 2 / 2" — not
the 1 of 2 the claim states. -/
theorem scenario_b_progress_amended :
    (go_next scenario_b_questions "python" stub_score stub_report 0
        scenario_b_args).map
      (fun r => (r.display.new_idx, r.display.current_valid,
        r.display.total_valid, r.display.next_label))
      = Except.ok (2, 2, 2, "Suivant (Question 2 / 2)") := by
  rfl

/-- C2 (counterexample): the progress count at the Scenario-B landing
index is 2, not the claimed 1. -/
theorem scenario_b_progress_counterexample :
    (go_next scenario_b_questions "python" stub_score stub_report 0
        scenario_b_args).map (fun r => r.display.current_valid)
      = Except.ok 2 ∧ (2 : Nat) ≠ 1 := by
  exact ⟨rfl, by decide⟩

/-- C5: when advance reaches the terminal index `N` (the gates pass and
the forward scan returns `N`), the navigation state returned is `N` in
both outcomes of the scoring / report-generation call: on failure the
error message is shown and the result panel and PDF download control are
hidden; on success the scoring markdown and the PDF path are shown and the
error state is hidden.  No warning is raised either way. -/
theorem terminal_scoring_boundary (questions : List Question)
    (language : String) (score : Context → Except String ScoringRaw)
    (gen_report : Context → String → List (List String) → PdfOptions →
      Except String String)
    (current_idx : Nat) (args : List Value) (u : DisplayResult)
    (hgate : ¬((questions.getD current_idx default_question).has_default
        = false ∧
      is_empty_value (args.getD current_idx Value.vnone) = true))
    (hvalid : (questions.getD current_idx default_question).valid_if = none ∨
      ∃ c, (questions.getD current_idx default_question).valid_if = some c ∧
        evaluate_valid_if c (build_context questions args) = Except.ok true)
    (hfind : find_next_valid_question current_idx questions
      (build_context questions args) 1
        = Except.ok (questions.length : Int))
    (hupd : update_question_display questions (questions.length : Int) args
      = Except.ok u) :
    u.new_idx = (questions.length : Int) ∧
    (∀ e, run_scoring_and_report language score gen_report
        (build_context questions args) = Except.error e →
      go_next questions language score gen_report current_idx args
        = Except.ok (GoNextResult.mk u [] CompUpdate.hidden
            CompUpdate.hidden (CompUpdate.shown e))) ∧
    (∀ md path, run_scoring_and_report language score gen_report
        (build_context questions args) = Except.ok (md, path) →
      go_next questions language score gen_report current_idx args
        = Except.ok (GoNextResult.mk u [] (CompUpdate.shown md)
            (CompUpdate.shown path) CompUpdate.hidden)) := by
  have hnew : u.new_idx = (questions.length : Int) := by
    obtain ⟨display_idx, _, _, _, hres, _, _, _, _, hni, _, _⟩ :=
      update_display_inversion hupd
    rw [resolve_out_of_range questions (build_context questions args)
      (questions.length + 1) (questions.length : Int) (by omega)] at hres
    injection hres with h
    rw [hni, ← h]
  have hcond : (!(questions.getD current_idx default_question).has_default
      && is_empty_value (args.getD current_idx Value.vnone)) = false := by
    cases hhd : (questions.getD current_idx default_question).has_default <;>
      cases hev : is_empty_value (args.getD current_idx Value.vnone) <;>
      simp_all
  have hgo : go_next questions language score gen_report current_idx args
      = go_next_validate questions language score gen_report current_idx
          args := by
    unfold go_next
    rw [hcond]
    simp
  have hval : go_next_validate questions language score gen_report
      current_idx args
      = go_next_advance questions language score gen_report current_idx
          args := by
    unfold go_next_validate
    rcases hvalid with hnone | ⟨c, hsome, heval⟩
    · rw [hnone]
    · simp only [hsome, heval]
  refine ⟨hnew, ?_, ?_⟩
  · intro e hrun
    rw [hgo, hval]
    unfold go_next_advance
    simp only [hfind, hupd, hrun]
    rw [if_pos (le_refl _)]
  · intro md path hrun
    rw [hgo, hval]
    unfold go_next_advance
    simp only [hfind, hupd, hrun]
    rw [if_pos (le_refl _)]

/-- Scoring stub that always raises. -/
def failing_score : Context → Except String ScoringRaw :=
  fun _ => Except.error "boom"

/-- Scoring stub returning a well-formed result. -/
def ok_score : Context → Except String ScoringRaw :=
  fun _ => Except.ok ("MD", [["h"]], PdfOptions.mk true true)

/-- Report stub returning a fixed artifact path. -/
def ok_report :
    Context → String → List (List String) → PdfOptions →
      Except String String :=
  fun _ _ _ _ => Except.ok "report.pdf"

/-- Terminal projection for the one-question set. -/
def terminal_projection : DisplayResult :=
  DisplayResult.mk [(0, QUpdate.mk true false (Value.vint 3))] false false
    "Termine" 1 1 1

/-- C5 (witness): the terminal boundary theorem at the one-question set:
a failing scoring call keeps the navigation index at `N = 1`, shows the
wrapped error and hides the result and PDF controls; a succeeding scoring
and report call shows the markdown and the path and hides the error. -/
theorem terminal_scoring_boundary_witness :
    terminal_projection.new_idx = (plain_question.length : Int) ∧
    go_next plain_question "python" failing_score ok_report 0 [Value.vint 3]
      = Except.ok (GoNextResult.mk terminal_projection []
          CompUpdate.hidden CompUpdate.hidden
          (CompUpdate.shown
            "Erreur lors de l execution du scoring Python: boom")) ∧
    go_next plain_question "python" ok_score ok_report 0 [Value.vint 3]
      = Except.ok (GoNextResult.mk terminal_projection []
          (CompUpdate.shown "MD") (CompUpdate.shown "report.pdf")
          CompUpdate.hidden) := by
  refine ⟨?_, ?_, ?_⟩
  · exact (terminal_scoring_boundary plain_question "python" failing_score
      ok_report 0 [Value.vint 3] terminal_projection (by decide)
      (Or.inl rfl) rfl rfl).1
  · exact (terminal_scoring_boundary plain_question "python" failing_score
      ok_report 0 [Value.vint 3] terminal_projection (by decide)
      (Or.inl rfl) rfl rfl).2.1
      "Erreur lors de l execution du scoring Python: boom" rfl
  · exact (terminal_scoring_boundary plain_question "python" ok_score
      ok_report 0 [Value.vint 3] terminal_projection (by decide)
      (Or.inl rfl) rfl rfl).2.2 "MD" "report.pdf" rfl

/-- C6 (amended): with the answered-or-defaulted gate passed and the
current question itself eligible under the submitted context, a `valid_if`
that evaluates false rejects the transition with the question's own
`invalid_message` when present (else the generic message) and leaves the
navigation index unchanged; an evaluation failure rejects with the error
surfaced as a warning and the index likewise unchanged.  (When the current
question's own `skip_if` holds under the submitted context, the rejection
re-resolves the display index forward instead — see the
counterexample.) -/
theorem valid_if_gate_amended (questions : List Question)
    (language : String) (score : Context → Except String ScoringRaw)
    (gen_report : Context → String → List (List String) → PdfOptions →
      Except String String)
    (current_idx : Nat) (args : List Value) (c : Expr) (u : DisplayResult)
    (hq : (questions.getD current_idx default_question).valid_if = some c)
    (hgate : ¬((questions.getD current_idx default_question).has_default
        = false ∧
      is_empty_value (args.getD current_idx Value.vnone) = true))
    (helig : question_is_eligible
      (questions.getD current_idx default_question)
      (build_context questions args) = Except.ok true)
    (hupd : update_question_display questions current_idx args
      = Except.ok u) :
    u.new_idx = current_idx ∧
    (∀ e, evaluate_valid_if c (build_context questions args)
        = Except.error e →
      go_next questions language score gen_report current_idx args
        = Except.ok
            (GoNextResult.mk u ["Erreur lors de la validation: " ++ e]
              CompUpdate.absent CompUpdate.absent CompUpdate.absent)) ∧
    (evaluate_valid_if c (build_context questions args) = Except.ok false →
      go_next questions language score gen_report current_idx args
        = Except.ok
            (GoNextResult.mk u
              [(questions.getD current_idx
                  default_question).invalid_message.getD
                ("La reponse a la question actuelle n est pas valide: "
                  ++ (questions.getD current_idx
                    default_question).question)]
              CompUpdate.absent CompUpdate.absent CompUpdate.absent)) := by
  have hnew : u.new_idx = current_idx := by
    obtain ⟨display_idx, _, _, _, hres, _, _, _, _, hni, _, _⟩ :=
      update_display_inversion hupd
    rw [resolve_at_eligible questions (build_context questions args)
      questions.length (current_idx : Int) helig] at hres
    injection hres with h
    rw [hni, ← h]
  have hcond : (!(questions.getD current_idx default_question).has_default
      && is_empty_value (args.getD current_idx Value.vnone)) = false := by
    cases hhd : (questions.getD current_idx default_question).has_default <;>
      cases hev : is_empty_value (args.getD current_idx Value.vnone) <;>
      simp_all
  have hgo : go_next questions language score gen_report current_idx args
      = go_next_validate questions language score gen_report current_idx
          args := by
    unfold go_next
    rw [hcond]
    simp
  refine ⟨hnew, ?_, ?_⟩
  · intro e heval
    rw [hgo]
    unfold go_next_validate
    simp only [hq, heval, hupd]
  · intro heval
    rw [hgo]
    unfold go_next_validate
    simp only [hq, heval, hupd]

/-- Question set where question 0 carries both a `skip_if` (on its own
answer) and an always-false `valid_if`. -/
def conflicting_questions : List Question :=
  [Question.mk "a" "QA" (some (Expr.var "a"))
     (some (Expr.lit (Value.vbool false))) none false,
   Question.mk "b" "QB" none none none false]

/-- C6 (counterexample): with the answer to question 0 truthy, its
`skip_if` holds and its `valid_if` is false; advance from index 0 is
rejected (the generic warning is emitted), yet the navigation index
returned is 1, not the unchanged 0 the claim requires. -/
theorem valid_if_gate_counterexample :
    (go_next conflicting_questions "python" stub_score stub_report 0
        [Value.vbool true, Value.vnone]).map
      (fun r => (r.warnings, r.display.new_idx))
      = Except.ok
          (["La reponse a la question actuelle n est pas valide: QA"],
            1) ∧
    (1 : Int) ≠ 0 := by
  exact ⟨rfl, by decide⟩

/-- The Scenario-C question: `valid_if = "age >= 18"` with
`invalid_message = "Must be adult"`. -/
def scenario_c_questions : List Question :=
  [Question.mk "age" "Quel est votre age" none
    (some (Expr.ge (Expr.var "age") (Expr.lit (Value.vint 18))))
    (some "Must be adult") false]

/-- Projection emitted for the Scenario-C question at index 0 with the
answer 10. -/
def scenario_c_projection : DisplayResult :=
  DisplayResult.mk [(0, QUpdate.mk true true (Value.vint 10))] false true
    "Suivant (Question 1 / 1)" 1 1 0

/-- C6 (witness): Scenario C — submitting `age = 10` and advancing rejects
with exactly "Must be adult" and leaves the navigation index at 0. -/
theorem valid_if_gate_witness :
    scenario_c_projection.new_idx = ((0 : Nat) : Int) ∧
    go_next scenario_c_questions "python" stub_score stub_report 0
        [Value.vint 10]
      = Except.ok
          (GoNextResult.mk scenario_c_projection ["Must be adult"]
            CompUpdate.absent CompUpdate.absent CompUpdate.absent) :=
  ⟨(valid_if_gate_amended scenario_c_questions "python" stub_score
      stub_report 0 [Value.vint 10]
      (Expr.ge (Expr.var "age") (Expr.lit (Value.vint 18)))
      scenario_c_projection rfl (by decide) rfl rfl).1,
    (valid_if_gate_amended scenario_c_questions "python" stub_score
      stub_report 0 [Value.vint 10]
      (Expr.ge (Expr.var "age") (Expr.lit (Value.vint 18)))
      scenario_c_projection rfl (by decide) rfl rfl).2.2 rfl⟩

/-- C7 (amended): for a question with no declared default, an empty
current value rejects the advance with a warning naming the question, and
— provided the question itself is eligible under the submitted context —
the navigation index is unchanged (when its own `skip_if` holds, the
rejection re-resolves the index forward instead, see the counterexample);
a question with a declared default is never rejected for emptiness: the
handler proceeds directly to the validation stage. -/
theorem empty_answer_gate_amended :
    (∀ (questions : List Question) (language : String)
      (score : Context → Except String ScoringRaw)
      (gen_report : Context → String → List (List String) → PdfOptions →
        Except String String)
      (current_idx : Nat) (args : List Value) (u : DisplayResult),
      (questions.getD current_idx default_question).has_default = false →
      is_empty_value (args.getD current_idx Value.vnone) = true →
      question_is_eligible (questions.getD current_idx default_question)
        (build_context questions args) = Except.ok true →
      update_question_display questions current_idx args = Except.ok u →
      u.new_idx = current_idx ∧
      go_next questions language score gen_report current_idx args
        = Except.ok
            (GoNextResult.mk u
              ["Veuillez repondre a la question actuelle avant de continuer: "
                ++ (questions.getD current_idx default_question).question]
              CompUpdate.absent CompUpdate.absent CompUpdate.absent)) ∧
    (∀ (questions : List Question) (language : String)
      (score : Context → Except String ScoringRaw)
      (gen_report : Context → String → List (List String) → PdfOptions →
        Except String String)
      (current_idx : Nat) (args : List Value),
      (questions.getD current_idx default_question).has_default = true →
      go_next questions language score gen_report current_idx args
        = go_next_validate questions language score gen_report current_idx
            args) := by
  constructor
  · intro questions language score gen_report current_idx args u hhd hev
      helig hupd
    have hnew : u.new_idx = current_idx := by
      obtain ⟨display_idx, _, _, _, hres, _, _, _, _, hni, _, _⟩ :=
        update_display_inversion hupd
      rw [resolve_at_eligible questions (build_context questions args)
        questions.length (current_idx : Int) helig] at hres
      injection hres with h
      rw [hni, ← h]
    refine ⟨hnew, ?_⟩
    unfold go_next
    simp only [hhd, hev, hupd, Bool.not_false, Bool.and_self, if_true]
  · intro questions language score gen_report current_idx args hhd
    unfold go_next
    simp only [hhd, Bool.not_true, Bool.false_and, Bool.false_eq_true,
      if_false]

/-- Question set where question 0 has no default and is skipped whenever
question 1 (which has a default) holds a truthy value. -/
def dependent_default_questions : List Question :=
  [Question.mk "a" "QA" (some (Expr.var "b")) none none false,
   Question.mk "b" "QB" none none none true]

/-- C7 (counterexample): question 0 is unanswered (value `None`, no
default), so the advance is rejected with the warning naming it — yet
because its `skip_if` holds under the submitted context, the navigation
index returned is 1, not the unchanged 0 the claim requires. -/
theorem empty_answer_gate_counterexample :
    (go_next dependent_default_questions "python" stub_score stub_report 0
        [Value.vnone, Value.vbool true]).map
      (fun r => (r.warnings, r.display.new_idx))
      = Except.ok
          (["Veuillez repondre a la question actuelle avant de continuer: QA"],
            1) ∧
    (1 : Int) ≠ 0 := by
  exact ⟨rfl, by decide⟩

/-- Projection emitted for `plain_question` at index 0 while unanswered. -/
def unanswered_projection : DisplayResult :=
  DisplayResult.mk [(0, QUpdate.mk true true Value.vnone)] false true
    "Suivant (Question 1 / 1)" 1 1 0

/-- C7 (witness): the amended gate theorem at the one-question set with an
empty answer — rejected with the warning naming the question, index
unchanged at 0. -/
theorem empty_answer_gate_witness :
    unanswered_projection.new_idx = ((0 : Nat) : Int) ∧
    go_next plain_question "python" stub_score stub_report 0 [Value.vnone]
      = Except.ok
          (GoNextResult.mk unanswered_projection
            ["Veuillez repondre a la question actuelle avant de continuer: QW"]
            CompUpdate.absent CompUpdate.absent CompUpdate.absent) := by
  have h := empty_answer_gate_amended.1 plain_question "python" stub_score
    stub_report 0 [Value.vnone] unanswered_projection rfl rfl rfl rfl
  exact ⟨h.1, h.2⟩

end PrevMed
